import Mathlib

/-
Shallow embedding of the opencxl-core transport fabric: the FMLD CCI command
handlers (`opencxl/cxl/component/fmld.py`), the Set-LD-Allocations payload
codec (`opencxl/cxl/cci/fabric_manager/mld_components/set_ld_allocations.py`),
the virtual switch binding path
(`opencxl/cxl/component/virtual_switch/virtual_switch.py`), and the IRQ
manager (`opencxl/cxl/component/irq_manager.py`).  Python dicts keyed by
`0..n-1` are embedded as Lean lists; machine integers are `Nat`; code that
raises is embedded with `Except`/error components.
-/

deriving instance DecidableEq for Except

/-- Translation of `int_to_list(allocated_ld_list_bytes, length)` in
`fmld.py`: repeatedly takes the low byte and inserts it at the front, so the
result is the `length` low bytes of the integer, most significant first. -/
def int_to_list (allocatedLdListBytes : Nat) : Nat → List Nat
  | 0 => []
  | k + 1 => int_to_list (allocatedLdListBytes / 256) k ++ [allocatedLdListBytes % 256]

/-- State of an `FMLD` instance as set up by `FMLD.__init__`: `_ld_dict`
(a dict `{i: 1 for i in range(ld_count)}`, embedded as a list indexed by
LD id), `_ld_count`, and `_memory_granularity`. -/
structure FmldState where
  ldDict : List Nat
  ldCount : Nat
  memoryGranularity : Nat
deriving DecidableEq

/-- Fresh FMLD state per `FMLD.__init__`: every LD id maps to 1
(not allocated / enabled), `_memory_granularity = 256`. -/
def fmldInit (ldCount : Nat) : FmldState :=
  FmldState.mk (List.replicate ldCount 1) ldCount 256

/-- CCI request packet as seen by the FMLD dispatch loop: the command opcode
plus the field getters the three handlers use (`get_start_ld_id`,
`get_ld_allocation_list_limit`, `get_number_of_lds`,
`get_ld_allocation_list`; the last returns the list packed into one
integer, which `_process_set_ld_allocations_packet` decodes with
`int_to_list`). -/
structure CciPacket where
  commandOpcode : Nat
  startLdId : Nat
  ldAllocationListLimit : Nat
  numberOfLds : Nat
  ldAllocationList : Nat
deriving DecidableEq

/-- Response packets the FMLD puts on `upstream_fifo.target_to_host`,
carrying the fields passed to the corresponding `create` calls in
`fmld.py`. -/
inductive FmldResponse where
  | getLdInfo (memorySize ldCount : Nat)
  | getLdAllocations (numberOfLds memoryGranularity startLdId ldAllocationListLength : Nat)
      (ldAllocationList : List Nat)
  | setLdAllocations (numberOfLds startLdId : Nat) (ldAllocationList : List Nat)
deriving DecidableEq

/-- The `number_of_lds` field carried by an allocation response (0 for a
Get-LD-Info response, which has none). -/
def FmldResponse.respNumberOfLds : FmldResponse → Nat
  | .getLdInfo _ _ => 0
  | .getLdAllocations n _ _ _ _ => n
  | .setLdAllocations n _ _ => n

/-- The `ld_allocation_list` field carried by an allocation response
(empty for a Get-LD-Info response, which has none). -/
def FmldResponse.respLdAllocationList : FmldResponse → List Nat
  | .getLdInfo _ _ => []
  | .getLdAllocations _ _ _ _ l => l
  | .setLdAllocations _ _ l => l

/-- Translation of `FMLD._process_get_ld_info_packet` (opcode `0x5400`):
responds with `memory_size = ld_count * 1024 * 1024 * 256` and the LD
count; the state is not touched. -/
def processGetLdInfoPacket (st : FmldState) : FmldResponse :=
  FmldResponse.getLdInfo (st.ldCount * 1024 * 1024 * 256) st.ldCount

/-- Counting loop of `_process_get_ld_allocations_packet`:
`for i in range(max_len_ld_list): if self._ld_dict.get(start_ld_id+i) == 1:
number_of_lds += 1`.  The last argument is the number of remaining
iterations, `i` the current loop index. -/
def getLdAllocCount (ldDict : List Nat) (startLdId i : Nat) : Nat → Nat
  | 0 => 0
  | k + 1 =>
    (if ldDict[startLdId + i]? = some 1 then 1 else 0) +
      getLdAllocCount ldDict startLdId (i + 1) k

/-- List-building loop of `_process_get_ld_allocations_packet`: appends `1`
while the dict entry is `1`, and stops (Python `break`) at the first entry
equal to `0` without appending it; a missing key (or any other value)
matches neither `== 1` nor `== 0` and the loop continues. -/
def getLdAllocBuild (ldDict : List Nat) (startLdId i : Nat) : Nat → List Nat
  | 0 => []
  | k + 1 =>
    match ldDict[startLdId + i]? with
    | some 1 => 1 :: getLdAllocBuild ldDict startLdId (i + 1) k
    | some 0 => []
    | _ => getLdAllocBuild ldDict startLdId (i + 1) k

/-- Translation of `FMLD._process_get_ld_allocations_packet` (opcode
`0x5401`).  Raises (`Except.error`) when `start_ld_id >= len(self._ld_dict)`
(the `start_ld_id < 0` arm of the Python check cannot fire on `Nat`);
otherwise answers with `number_of_lds` counted over `max_len_ld_list`
entries, `memory_granularity = 0`, the allocation list built over
`ld_length = min(limit, max_len_ld_list)` entries, and its length
(`allocated_ld_length` in the source is incremented exactly once per
appended element, hence equals the list length).  `self._ld_dict` is never
assigned. -/
def processGetLdAllocationsPacket (st : FmldState) (startLdId ldAllocationListLimit : Nat) :
    Except String FmldResponse :=
  if startLdId ≥ st.ldDict.length then Except.error "Invalid start_ld_id"
  else
    let maxLenLdList := st.ldDict.length - startLdId
    let ldLength :=
      if ldAllocationListLimit < maxLenLdList then ldAllocationListLimit else maxLenLdList
    let numberOfLds := getLdAllocCount st.ldDict startLdId 0 maxLenLdList
    let allocatedLd := getLdAllocBuild st.ldDict startLdId 0 ldLength
    Except.ok
      (FmldResponse.getLdAllocations numberOfLds 0 startLdId allocatedLd.length allocatedLd)

/-- Allocation loop of `_process_set_ld_allocations_packet`, returning the
updated dict, the response list (in append order) and
`response_number_of_lds`.  Branches as in the source: when
`d >= r` grant `r`, set the entry to `d - r` and count; else when `d == 0`
append `0` without counting; else (`0 < d < r`) grant `d`, zero the entry
and count.  Within the handler's reach the dict keys exist, so the
`getD _ 0` default is never exercised there. -/
def setLdAllocGo (ldDict : List Nat) (startLdId : Nat) (ldAllocationList : List Nat)
    (i : Nat) : Nat → List Nat × List Nat × Nat
  | 0 => (ldDict, [], 0)
  | k + 1 =>
    let d := ldDict.getD (startLdId + i) 0
    let r := ldAllocationList.getD i 0
    if r ≤ d then
      let next := setLdAllocGo (ldDict.set (startLdId + i) (d - r)) startLdId
        ldAllocationList (i + 1) k
      (next.1, r :: next.2.1, next.2.2 + 1)
    else if d = 0 then
      let next := setLdAllocGo ldDict startLdId ldAllocationList (i + 1) k
      (next.1, 0 :: next.2.1, next.2.2)
    else
      let next := setLdAllocGo (ldDict.set (startLdId + i) 0) startLdId
        ldAllocationList (i + 1) k
      (next.1, d :: next.2.1, next.2.2 + 1)

/-- Translation of `FMLD._process_set_ld_allocations_packet` (opcode
`0x5402`): decodes the request list with `int_to_list`, clamps
`number_of_lds` to `len(self._ld_dict) - start_ld_id` when that is smaller,
runs the allocation loop, and responds with `response_number_of_lds`,
`start_ld_id` and the response list.  Returns the updated state together
with the response. -/
def processSetLdAllocationsPacket (st : FmldState)
    (numberOfLds startLdId ldAllocationListBytes : Nat) : FmldState × FmldResponse :=
  let ldAllocationList := int_to_list ldAllocationListBytes numberOfLds
  let clamped :=
    if st.ldDict.length - startLdId < numberOfLds then st.ldDict.length - startLdId
    else numberOfLds
  let res := setLdAllocGo st.ldDict startLdId ldAllocationList 0 clamped
  (FmldState.mk res.1 st.ldCount st.memoryGranularity,
   FmldResponse.setLdAllocations res.2.2 startLdId res.2.1)

/-- One iteration of the `FMLD._process_fm_to_target` dispatch on a received
packet: opcode `0x5400`, `0x5401`, `0x5402` go to the three handlers (each
handler's own opcode re-check passes under this dispatch); any other opcode
matches no branch, so the packet is dropped with no response and the loop
moves on to the next packet.  The result pairs the state after the packet
with the responses put on `target_to_host` (`Except.error` embeds an
uncaught exception from a handler). -/
def fmldHandlePacket (st : FmldState) (packet : CciPacket) :
    FmldState × Except String (List FmldResponse) :=
  if packet.commandOpcode = 0x5400 then
    (st, Except.ok [processGetLdInfoPacket st])
  else if packet.commandOpcode = 0x5401 then
    match processGetLdAllocationsPacket st packet.startLdId packet.ldAllocationListLimit with
    | Except.error e => (st, Except.error e)
    | Except.ok resp => (st, Except.ok [resp])
  else if packet.commandOpcode = 0x5402 then
    let res := processSetLdAllocationsPacket st packet.numberOfLds packet.startLdId
      packet.ldAllocationList
    (res.1, Except.ok [res.2])
  else (st, Except.ok [])

/-- Field state of the Python dataclass `SetLdAllocationsRequestPayload` in
`set_ld_allocations.py`: `number_of_lds` (1 byte), `start_ld_id` (1 byte)
and `ld_allocation_list`, which `parse` fills with the raw bytes
`data[4:]` (embedded as a list of byte values). -/
structure SetLdAllocationsRequestPayload where
  numberOfLds : Nat
  startLdId : Nat
  ldAllocationList : List Nat
deriving DecidableEq

/-- Translation of `SetLdAllocationsRequestPayload.parse`: unpacks the first
two bytes as `number_of_lds` and `start_ld_id` (raising `struct.error` when
fewer than two bytes are given) and keeps `data[4:]` as the allocation
list, skipping the two reserved bytes `data[2:4]`. -/
def SetLdAllocationsRequestPayload.parse (data : List Nat) :
    Except String SetLdAllocationsRequestPayload :=
  if data.length < 2 then
    Except.error "struct.error: unpack requires a buffer of 2 bytes"
  else
    Except.ok
      (SetLdAllocationsRequestPayload.mk (data.getD 0 0) (data.getD 1 0) (data.drop 4))

/-- Translation of `SetLdAllocationsRequestPayload.dump`: packs the two
header bytes (raising `struct.error` when either exceeds one byte), two
zero reserved bytes, then runs
`for range_1, range_2 in self.ld_allocation_list`.  Iterating a `bytes`
value yields integers, and tuple-unpacking an integer raises `TypeError`,
so the loop raises at the first element whenever the list is nonempty and
contributes nothing when it is empty. -/
def SetLdAllocationsRequestPayload.dump (p : SetLdAllocationsRequestPayload) :
    Except String (List Nat) :=
  if 256 ≤ p.numberOfLds ∨ 256 ≤ p.startLdId then
    Except.error "struct.error: ubyte format requires 0 <= number <= 255"
  else
    match p.ldAllocationList with
    | [] => Except.ok [p.numberOfLds, p.startLdId, 0, 0]
    | _ :: _ => Except.error "TypeError: cannot unpack non-iterable int object"

/-- Physical port device types relevant to `CxlVirtualSwitch`
(`CXL_COMPONENT_TYPE` restricted to the two members the bind path
compares against). -/
inductive CxlComponentType where
  | USP
  | DSP
deriving DecidableEq

/-- Modelled from the spec: mutable pieces of `CxlVirtualSwitch` touched by
`bind_vppb`, whose classes (`RoutingTable`, `DownstreamVppb`, `PortBinder`)
are not under `src/`.  `routingActive` is the routing table's per-vPPB
activation bit (spec section 4.5); `vppbBinding` is each
`DownstreamVppb`'s bound physical port; `binderBound` is the
`PortBinder`'s `Bound(port)` state per vPPB (spec section 4.6); `events`
records `(vppb_id, PPB_BINDING_STATUS)` pairs passed to the registered
event handler in order. -/
structure SwitchState where
  routingActive : List Bool
  vppbBinding : List (Option Nat)
  binderBound : List (Option Nat)
  events : List (Nat × Nat)
deriving DecidableEq

/-- Modelled from the spec: `RoutingTable.activate_vppb` (class not under
`src/`; spec section 4.5 `activate(vppb)`), which sets the vPPB's
activation bit. -/
def routingTableActivateVppb (active : List Bool) (vppbIndex : Nat) : List Bool :=
  active.set vppbIndex true

/-- Translation of `CxlVirtualSwitch.bind_vppb(port_index, vppb_index)` over
the given physical-port types, returning the state when the call finishes
or raises, together with the raised message (`none` on success).  Order as
in the source: the range check on `port_index` raises first; then
`self._routing_table.activate_vppb(vppb_index)` runs; then
`self._downstream_vppbs[vppb_index]` is fetched (an out-of-range index
raises `IndexError` here); then the DSP type check raises; only then are
the vPPB and the port binder bound (those callees are not under `src/` and
are modelled from the spec as recording `Bound(port)`) and the two event
notifications `BIND_OR_UNBIND_IN_PROGRESS = 1` and `BOUND_LD = 3`
emitted. -/
def bindVppb (physicalPorts : List CxlComponentType) (st : SwitchState)
    (portIndex vppbIndex : Nat) : SwitchState × Option String :=
  if physicalPorts.length ≤ portIndex then (st, some "port_index is out of bound")
  else
    let st1 := SwitchState.mk (routingTableActivateVppb st.routingActive vppbIndex)
      st.vppbBinding st.binderBound st.events
    if st.vppbBinding.length ≤ vppbIndex then
      (st1, some "IndexError: list index out of range")
    else if physicalPorts.getD portIndex CxlComponentType.USP ≠ CxlComponentType.DSP then
      (st1, some "physical port is not DSP")
    else
      (SwitchState.mk st1.routingActive
        (st1.vppbBinding.set vppbIndex (some portIndex))
        (st1.binderBound.set vppbIndex (some portIndex))
        (st1.events ++ [(vppbIndex, 1), (vppbIndex, 3)]), none)

/-- IRQ codes of `irq_manager.py`'s `Irq` enumeration. -/
inductive Irq where
  | NULL
  | HOST_READY
  | ACCEL_VALIDATION_FINISHED
  | HOST_SENT
  | ACCEL_TRAINING_FINISHED
  | DEV_REMOVED
  | DEV_ADDED
deriving DecidableEq

/-- Numeric `.value` of each `Irq` member. -/
def Irq.value : Irq → Nat
  | .NULL => 0
  | .HOST_READY => 1
  | .ACCEL_VALIDATION_FINISHED => 2
  | .HOST_SENT => 3
  | .ACCEL_TRAINING_FINISHED => 4
  | .DEV_REMOVED => 5
  | .DEV_ADDED => 6

/-- Byte-production loop of Python `int.to_bytes` with the default `big`
byte order: most significant of the low `length` bytes first. -/
def intToBytesGo (value : Nat) : Nat → List Nat
  | 0 => []
  | k + 1 => intToBytesGo (value / 256) k ++ [value % 256]

/-- Python `value.to_bytes(length=length)`: big-endian by default, raising
`OverflowError` when the value does not fit. -/
def int_to_bytes (value length : Nat) : Except String (List Nat) :=
  if 256 ^ length ≤ value then Except.error "OverflowError: int too big to convert"
  else Except.ok (intToBytesGo value length)

/-- Python `int.from_bytes(msg)`: big-endian by default. -/
def int_from_bytes (msg : List Nat) : Nat :=
  msg.foldl (fun acc b => acc * 256 + b) 0

/-- Frame written by `IrqManager.send_irq_request`: the two bytes of
`val_w_dev_id = request.value << 8 | self._device_id` produced by
`to_bytes(length=IRQ_WIDTH)` (`IRQ_WIDTH = 2`), where `deviceId` stands for
the sending manager's `_device_id`. -/
def sendIrqRequestBytes (request : Irq) (deviceId : Nat) : Except String (List Nat) :=
  int_to_bytes ((Irq.value request <<< 8) ||| deviceId) 2

/-- Lookup in a Python dict embedded as an association list with unique
keys. -/
def assocLookup {β : Type} (l : List (Nat × β)) (key : Nat) : Option β :=
  match l.find? (fun kv => kv.1 == key) with
  | none => none
  | some kv => some kv.2

/-- Python `del d[key]` on a dict embedded as an association list. -/
def assocErase {β : Type} (l : List (Nat × β)) (key : Nat) : List (Nat × β) :=
  l.filter (fun kv => kv.1 != key)

/-- Outcome of one received IRQ frame in `IrqManager._irq_handler`:
the callback scheduled with `create_task` (callbacks are embedded as
numeric ids), the `_general_interrupt_event` registry afterwards, and
whether the handler loop continues (the general-handler branch ends with
`return`). -/
structure IrqDispatchResult where
  invoked : Nat
  general : List (Nat × Nat × Bool)
  continueLoop : Bool
deriving DecidableEq

/-- Decoding lines of `IrqManager._irq_handler` for one received 2-byte
frame: `irq = msg_int >> 8` and `remote_dev_id = msg_int & 0xFF`, the
latter forced to 0 when the manager is not the server. -/
def irqHandlerDecode (server : Bool) (msg : List Nat) : Nat × Nat :=
  (int_from_bytes msg >>> 8, if server then int_from_bytes msg &&& 0xFF else 0)

/-- Translation of the per-message body of `IrqManager._irq_handler`:
`msg_int = int.from_bytes(msg)`; `remote_dev_id = msg_int & 0xFF`, forced
to 0 on a non-server; `irq = Irq(msg_int >> 8)` (raising `ValueError` for
codes above 6).  When `remote_dev_id` has no entry in
`_msg_to_interrupt_event`, the general registry is consulted: a hit
schedules the callback, deletes the entry when not persistent, and
returns from the loop; a miss raises.  When `remote_dev_id` has an entry,
only that device's registry is consulted and a miss raises even when a
general handler exists. -/
def irqHandlerStep (server : Bool) (specific : List (Nat × List (Nat × Nat)))
    (general : List (Nat × Nat × Bool)) (msg : List Nat) :
    Except String IrqDispatchResult :=
  let remoteDevId := (irqHandlerDecode server msg).2
  let irqNum := (irqHandlerDecode server msg).1
  if 6 < irqNum then Except.error "ValueError: not a valid Irq"
  else
    match assocLookup specific remoteDevId with
    | none =>
      match assocLookup general irqNum with
      | none => Except.error "RuntimeError: IRQ is not registered for remote"
      | some hp =>
        Except.ok (IrqDispatchResult.mk hp.1
          (if hp.2 then general else assocErase general irqNum) false)
    | some devMap =>
      match assocLookup devMap irqNum with
      | none => Except.error "RuntimeError: Invalid IRQ for remote"
      | some h => Except.ok (IrqDispatchResult.mk h general true)

/-- Rendering of claim C7's wording of the IRQ frame: the two bytes of
`(irq_code << 8) | dev_id` in little-endian order, so the first byte on
the wire would be the device id. -/
def claimLittleEndianFrame (value : Nat) : List Nat :=
  [value % 256, value / 256 % 256]

/-- Rendering of claim C3's wording of the allocation-list walk: emit each
`ld_dict[start_ld_id+i]` byte until the first zero, with the zero itself
emitted. -/
def claimInclusiveEmit (ldDict : List Nat) (startLdId i : Nat) : Nat → List Nat
  | 0 => []
  | k + 1 =>
    let v := ldDict.getD (startLdId + i) 0
    if v = 0 then [0] else v :: claimInclusiveEmit ldDict startLdId (i + 1) k

/-
Helper lemmas about the allocation loops, shared by several claims below.
-/

theorem list_set_getD_self (l : List Nat) (p : Nat) : l.set p (l.getD p 0) = l := by
  by_cases hp : p < l.length
  · apply List.ext_getElem?
    intro n
    by_cases hpn : p = n
    · subst hpn
      rw [List.getElem?_set_self hp]
      simp [List.getElem?_eq_getElem hp]
    · rw [List.getElem?_set_ne hpn]
  · exact List.set_eq_of_length_le (Nat.le_of_not_lt hp)

/-- The three branches of the `_process_set_ld_allocations_packet` loop body
collapse to one shape: grant `min d r`, store `d - min d r`, and count
exactly when `0 < d ∨ r = 0`. -/
theorem setLdAllocGo_succ (dict : List Nat) (start : Nat) (req : List Nat) (i k : Nat) :
    setLdAllocGo dict start req i (k + 1) =
      ((setLdAllocGo (dict.set (start + i)
            (dict.getD (start + i) 0 - min (dict.getD (start + i) 0) (req.getD i 0)))
          start req (i + 1) k).1,
        min (dict.getD (start + i) 0) (req.getD i 0) ::
          (setLdAllocGo (dict.set (start + i)
              (dict.getD (start + i) 0 - min (dict.getD (start + i) 0) (req.getD i 0)))
            start req (i + 1) k).2.1,
        (setLdAllocGo (dict.set (start + i)
            (dict.getD (start + i) 0 - min (dict.getD (start + i) 0) (req.getD i 0)))
          start req (i + 1) k).2.2 +
          (if 0 < dict.getD (start + i) 0 ∨ req.getD i 0 = 0 then 1 else 0)) := by
  by_cases h1 : req.getD i 0 ≤ dict.getD (start + i) 0
  · have hm : min (dict.getD (start + i) 0) (req.getD i 0) = req.getD i 0 :=
      Nat.min_eq_right h1
    have hc : 0 < dict.getD (start + i) 0 ∨ req.getD i 0 = 0 := by omega
    simp only [setLdAllocGo, if_pos h1, hm, if_pos hc]
  · by_cases h2 : dict.getD (start + i) 0 = 0
    · have hm : min (dict.getD (start + i) 0) (req.getD i 0) = dict.getD (start + i) 0 := by
        omega
      have hc : ¬(0 < dict.getD (start + i) 0 ∨ req.getD i 0 = 0) := by omega
      have hset : dict.set (start + i)
          (dict.getD (start + i) 0 - min (dict.getD (start + i) 0) (req.getD i 0)) = dict := by
        rw [hm, Nat.sub_self, ← h2]
        exact list_set_getD_self dict (start + i)
      simp only [setLdAllocGo, if_neg h1, if_pos h2, if_neg hc, hset, Nat.add_zero]
      rw [hm, h2]
    · have hm : min (dict.getD (start + i) 0) (req.getD i 0) = dict.getD (start + i) 0 := by
        omega
      have hc : 0 < dict.getD (start + i) 0 ∨ req.getD i 0 = 0 := by omega
      simp only [setLdAllocGo, if_neg h1, if_neg h2, hm, Nat.sub_self, if_pos hc]

theorem setLdAllocGo_respLength (start : Nat) (req : List Nat) :
    ∀ (k i : Nat) (dict : List Nat), (setLdAllocGo dict start req i k).2.1.length = k := by
  intro k
  induction k with
  | zero => intro i dict; rfl
  | succ k ih =>
    intro i dict
    rw [setLdAllocGo_succ]
    simp [ih]

theorem setLdAllocGo_dictLength (start : Nat) (req : List Nat) :
    ∀ (k i : Nat) (dict : List Nat), (setLdAllocGo dict start req i k).1.length = dict.length := by
  intro k
  induction k with
  | zero => intro i dict; rfl
  | succ k ih =>
    intro i dict
    rw [setLdAllocGo_succ]
    simp [ih]

theorem setLdAllocGo_frame (start : Nat) (req : List Nat) :
    ∀ (k i : Nat) (dict : List Nat) (m : Nat), m < start + i ∨ start + i + k ≤ m →
      (setLdAllocGo dict start req i k).1[m]? = dict[m]? := by
  intro k
  induction k with
  | zero => intro i dict m _; rfl
  | succ k ih =>
    intro i dict m hm
    rw [setLdAllocGo_succ]
    rw [ih (i + 1) _ m (by omega)]
    exact List.getElem?_set_ne (by omega)

theorem setLdAllocGo_window (start : Nat) (req : List Nat) :
    ∀ (k i : Nat) (dict : List Nat) (j : Nat), j < k →
      (setLdAllocGo dict start req i k).1[start + i + j]? =
        (dict[start + i + j]?).map (fun d => d - min d (req.getD (i + j) 0)) := by
  intro k
  induction k with
  | zero => intro i dict j hj; omega
  | succ k ih =>
    intro i dict j hj
    rw [setLdAllocGo_succ]
    cases j with
    | zero =>
      rw [setLdAllocGo_frame start req k (i + 1) _ (start + i + 0) (by omega)]
      rw [Nat.add_zero, Nat.add_zero, List.getElem?_set_self']
      cases h : dict[start + i]? with
      | none => simp [h]
      | some v =>
        simp [h, List.getD_eq_getElem?_getD]
    | succ j =>
      have h := ih (i + 1) (dict.set (start + i)
        (dict.getD (start + i) 0 - min (dict.getD (start + i) 0) (req.getD i 0))) j (by omega)
      rw [List.getElem?_set_ne (by omega)] at h
      have e1 : start + (i + 1) + j = start + i + (j + 1) := by omega
      have e2 : i + 1 + j = i + (j + 1) := by omega
      rw [e1, e2] at h
      exact h

theorem setLdAllocGo_grants (start : Nat) (req : List Nat) :
    ∀ (k i : Nat) (dict : List Nat) (j : Nat), j < k →
      (setLdAllocGo dict start req i k).2.1[j]? =
        some (min (dict.getD (start + i + j) 0) (req.getD (i + j) 0)) := by
  intro k
  induction k with
  | zero => intro i dict j hj; omega
  | succ k ih =>
    intro i dict j hj
    rw [setLdAllocGo_succ]
    cases j with
    | zero => simp
    | succ j =>
      have h := ih (i + 1) (dict.set (start + i)
        (dict.getD (start + i) 0 - min (dict.getD (start + i) 0) (req.getD i 0))) j (by omega)
      have hgd : (dict.set (start + i)
          (dict.getD (start + i) 0 - min (dict.getD (start + i) 0) (req.getD i 0))).getD
            (start + (i + 1) + j) 0 = dict.getD (start + (i + 1) + j) 0 := by
        simp only [List.getD_eq_getElem?_getD]
        rw [List.getElem?_set_ne (by omega)]
      rw [hgd] at h
      have e1 : start + (i + 1) + j = start + i + (j + 1) := by omega
      have e2 : i + 1 + j = i + (j + 1) := by omega
      rw [e1, e2] at h
      simpa using h

theorem setLdAllocGo_count (start : Nat) (req : List Nat) :
    ∀ (k i : Nat) (dict : List Nat),
      (setLdAllocGo dict start req i k).2.2 =
        (List.range k).countP
          (fun j => decide (0 < dict.getD (start + i + j) 0 ∨ req.getD (i + j) 0 = 0)) := by
  intro k
  induction k with
  | zero => intro i dict; rfl
  | succ k ih =>
    intro i dict
    rw [setLdAllocGo_succ]
    rw [List.range_succ_eq_map, List.countP_cons, List.countP_map]
    have hpred : ((fun j => decide (0 < dict.getD (start + i + j) 0 ∨ req.getD (i + j) 0 = 0)) ∘
          Nat.succ) =
        (fun j => decide (0 <
            (dict.set (start + i)
              (dict.getD (start + i) 0 -
                min (dict.getD (start + i) 0) (req.getD i 0))).getD (start + (i + 1) + j) 0 ∨
          req.getD (i + 1 + j) 0 = 0)) := by
      funext j
      have hgd : (dict.set (start + i)
          (dict.getD (start + i) 0 - min (dict.getD (start + i) 0) (req.getD i 0))).getD
            (start + (i + 1) + j) 0 = dict.getD (start + (i + 1) + j) 0 := by
        simp only [List.getD_eq_getElem?_getD]
        rw [List.getElem?_set_ne (by omega)]
      rw [hgd]
      have e1 : start + (i + 1) + j = start + i + (j + 1) := by omega
      have e2 : i + 1 + j = i + (j + 1) := by omega
      rw [e1, e2]
      rfl
    rw [hpred, ← ih (i + 1)]
    simp [Nat.add_comm]

theorem setLdAllocGo_le_one (start : Nat) (req : List Nat) :
    ∀ (k i : Nat) (dict : List Nat), (∀ v ∈ dict, v ≤ 1) →
      ∀ v ∈ (setLdAllocGo dict start req i k).1, v ≤ 1 := by
  intro k
  induction k with
  | zero => intro i dict h; exact h
  | succ k ih =>
    intro i dict h
    rw [setLdAllocGo_succ]
    apply ih (i + 1)
    intro v hv
    rcases List.mem_or_eq_of_mem_set hv with h' | h'
    · exact h v h'
    · have hd : dict.getD (start + i) 0 ≤ 1 := by
        by_cases hlt : start + i < dict.length
        · have he : dict.getD (start + i) 0 = dict[start + i] := by
            simp [List.getElem?_eq_getElem hlt]
          rw [he]
          exact h _ (List.getElem_mem hlt)
        · simp [List.getElem?_eq_none (Nat.le_of_not_lt hlt)]
      omega

theorem getLdAllocBuild_succ_one {dict : List Nat} {start i : Nat} (k : Nat)
    (h : dict[start + i]? = some 1) :
    getLdAllocBuild dict start i (k + 1) = 1 :: getLdAllocBuild dict start (i + 1) k := by
  simp [getLdAllocBuild, h]

theorem getLdAllocBuild_succ_zero {dict : List Nat} {start i : Nat} (k : Nat)
    (h : dict[start + i]? = some 0) :
    getLdAllocBuild dict start i (k + 1) = [] := by
  simp [getLdAllocBuild, h]

theorem getLdAllocBuild_eq_takeWhile (dict : List Nat) (start : Nat)
    (h01 : ∀ v ∈ dict, v ≤ 1) :
    ∀ (k i : Nat), start + i + k ≤ dict.length →
      getLdAllocBuild dict start i k =
        ((dict.drop (start + i)).take k).takeWhile (fun v => v == 1) := by
  intro k
  induction k with
  | zero => intro i _; simp [getLdAllocBuild]
  | succ k ih =>
    intro i hk
    have hlt : start + i < dict.length := by omega
    have hdrop : dict.drop (start + i) = dict[start + i] :: dict.drop (start + i + 1) :=
      List.drop_eq_getElem_cons hlt
    have hsome : dict[start + i]? = some dict[start + i] := List.getElem?_eq_getElem hlt
    have hv : dict[start + i] ≤ 1 := h01 _ (List.getElem_mem hlt)
    rw [hdrop, List.take_succ_cons]
    rcases Nat.lt_or_ge dict[start + i] 1 with h0 | h1
    · have h0 : dict[start + i] = 0 := by omega
      rw [h0] at hsome
      rw [getLdAllocBuild_succ_zero k hsome, List.takeWhile_cons_of_neg]
      simp [h0]
    · have h1 : dict[start + i] = 1 := by omega
      rw [h1] at hsome
      rw [getLdAllocBuild_succ_one k hsome, List.takeWhile_cons_of_pos (by simp [h1])]
      rw [ih (i + 1) (by omega), h1]
      have e : start + (i + 1) = start + i + 1 := by omega
      rw [e]

theorem getLdAllocCount_eq_countP (dict : List Nat) (start : Nat) :
    ∀ (k i : Nat), start + i + k ≤ dict.length →
      getLdAllocCount dict start i k =
        ((dict.drop (start + i)).take k).countP (fun v => v == 1) := by
  intro k
  induction k with
  | zero => intro i _; simp [getLdAllocCount]
  | succ k ih =>
    intro i hk
    have hlt : start + i < dict.length := by omega
    have hdrop : dict.drop (start + i) = dict[start + i] :: dict.drop (start + i + 1) :=
      List.drop_eq_getElem_cons hlt
    have hsome : dict[start + i]? = some dict[start + i] := List.getElem?_eq_getElem hlt
    rw [hdrop, List.take_succ_cons, List.countP_cons]
    have hrec : getLdAllocCount dict start i (k + 1) =
        (if dict[start + i]? = some 1 then 1 else 0) + getLdAllocCount dict start (i + 1) k := by
      simp [getLdAllocCount]
    rw [hrec, ih (i + 1) (by omega)]
    have e : start + (i + 1) = start + i + 1 := by omega
    rw [e, hsome]
    by_cases h1 : dict[start + i] = 1
    · simp [h1, Nat.add_comm]
    · simp [h1, Option.some_inj]

theorem fmldHandle_state_of_ne_set (st : FmldState) (p : CciPacket)
    (h : p.commandOpcode ≠ 0x5402) : (fmldHandlePacket st p).1 = st := by
  by_cases h4 : p.commandOpcode = 0x5400
  · simp [fmldHandlePacket, h4]
  · by_cases h5 : p.commandOpcode = 0x5401
    · simp only [fmldHandlePacket, if_neg h4, if_pos h5]
      cases hpr : processGetLdAllocationsPacket st p.startLdId p.ldAllocationListLimit <;>
        simp [hpr]
    · simp [fmldHandlePacket, h4, h5, h]

theorem fmldHandle_le_one (st : FmldState) (p : CciPacket)
    (h : ∀ v ∈ st.ldDict, v ≤ 1) : ∀ v ∈ (fmldHandlePacket st p).1.ldDict, v ≤ 1 := by
  by_cases h2 : p.commandOpcode = 0x5402
  · have h40 : p.commandOpcode ≠ 0x5400 := by omega
    have h41 : p.commandOpcode ≠ 0x5401 := by omega
    simp only [fmldHandlePacket, if_neg h40, if_neg h41, if_pos h2,
      processSetLdAllocationsPacket]
    exact setLdAllocGo_le_one _ _ _ _ _ h
  · rw [fmldHandle_state_of_ne_set st p h2]
    exact h

/-
Claim theorems.
-/

/-- C1: for every FMLD state and Set LD Allocations request with
`start_ld_id < ld_count`, the handler clamps `number_of_lds` to
`ld_count - start_ld_id`, and for each `i` below the clamped count the
granted amount equals `min(ld_dict[start_ld_id+i], request_i)`, the dict
entry is decremented by exactly that grant, and the grant is the `i`-th
byte of the response list. -/
theorem fmld_set_ld_allocations_grants_min (st : FmldState)
    (numberOfLds startLdId reqBytes : Nat) (h : startLdId < st.ldDict.length) :
    (processSetLdAllocationsPacket st numberOfLds startLdId
          reqBytes).2.respLdAllocationList.length
        = min numberOfLds (st.ldDict.length - startLdId) ∧
    ∀ i < min numberOfLds (st.ldDict.length - startLdId),
      (processSetLdAllocationsPacket st numberOfLds startLdId
            reqBytes).2.respLdAllocationList.getD i 0 =
          min (st.ldDict.getD (startLdId + i) 0)
            ((int_to_list reqBytes numberOfLds).getD i 0) ∧
      (processSetLdAllocationsPacket st numberOfLds startLdId
            reqBytes).1.ldDict.getD (startLdId + i) 0 =
          st.ldDict.getD (startLdId + i) 0 -
            min (st.ldDict.getD (startLdId + i) 0)
              ((int_to_list reqBytes numberOfLds).getD i 0) := by
  have hcl : (if st.ldDict.length - startLdId < numberOfLds then
        st.ldDict.length - startLdId else numberOfLds) =
      min numberOfLds (st.ldDict.length - startLdId) := by
    split <;> omega
  simp only [processSetLdAllocationsPacket, FmldResponse.respLdAllocationList, hcl]
  refine ⟨setLdAllocGo_respLength _ _ _ _ _, ?_⟩
  intro i hi
  constructor
  · have hg := setLdAllocGo_grants startLdId (int_to_list reqBytes numberOfLds)
      (min numberOfLds (st.ldDict.length - startLdId)) 0 st.ldDict i hi
    rw [Nat.add_zero, Nat.zero_add] at hg
    simp [hg]
  · have hw := setLdAllocGo_window startLdId (int_to_list reqBytes numberOfLds)
      (min numberOfLds (st.ldDict.length - startLdId)) 0 st.ldDict i hi
    rw [Nat.add_zero, Nat.zero_add] at hw
    have hlt : startLdId + i < st.ldDict.length := by omega
    rw [List.getElem?_eq_getElem hlt] at hw
    simp [hw, List.getElem?_eq_getElem hlt]

/-- C1 witness: the theorem applied to the spec's own example
(`ld_dict=[1,1,1,1]`, `start_ld_id=0`, `number_of_lds=3`, list `[0,1,2]`,
encoded as the integer 258), together with the example's outcome:
final dict `[1,0,0,1]`, response list `[0,1,1]`. -/
theorem fmld_set_ld_allocations_grants_min_witness :
    (0 < (fmldInit 4).ldDict.length) ∧
    ((processSetLdAllocationsPacket (fmldInit 4) 3 0 258).2.respLdAllocationList.length
        = min 3 ((fmldInit 4).ldDict.length - 0) ∧
      ∀ i < min 3 ((fmldInit 4).ldDict.length - 0),
        (processSetLdAllocationsPacket (fmldInit 4) 3 0 258).2.respLdAllocationList.getD i 0 =
            min ((fmldInit 4).ldDict.getD (0 + i) 0) ((int_to_list 258 3).getD i 0) ∧
        (processSetLdAllocationsPacket (fmldInit 4) 3 0 258).1.ldDict.getD (0 + i) 0 =
            (fmldInit 4).ldDict.getD (0 + i) 0 -
              min ((fmldInit 4).ldDict.getD (0 + i) 0) ((int_to_list 258 3).getD i 0)) ∧
    (processSetLdAllocationsPacket (fmldInit 4) 3 0 258).1.ldDict = [1, 0, 0, 1] ∧
    (processSetLdAllocationsPacket (fmldInit 4) 3 0 258).2 =
      FmldResponse.setLdAllocations 3 0 [0, 1, 1] :=
  ⟨by decide, fmld_set_ld_allocations_grants_min (fmldInit 4) 3 0 258 (by decide),
    by decide, by decide⟩

/-- C2 counterexample: on the spec's example the code answers
`response_number_of_lds = 3` (the `d >= r` branch also counts the no-op
grant `min(1,0) = 0` at index 0), while the number of indices with a
nonzero grant is 2, so the response field does not count the non-no-op
updates. -/
theorem fmld_set_ld_count_counterexample :
    (processSetLdAllocationsPacket (fmldInit 4) 3 0 258).2.respNumberOfLds = 3 ∧
    (List.range 3).countP
        (fun i => decide (0 < min ((fmldInit 4).ldDict.getD i 0)
          ((int_to_list 258 3).getD i 0))) = 2 ∧
    (3 : Nat) ≠ 2 := by decide

/-- C2 amended: `response_number_of_lds` counts the indices taken by the
counting branches of the loop, i.e. those with `ld_dict[start_ld_id+i] > 0`
or `request_i = 0`; equivalently every index in range except those where a
zero entry meets a nonzero request.  (On the spec's example this yields 3,
not 2.) -/
theorem fmld_set_ld_count_amended (st : FmldState)
    (numberOfLds startLdId reqBytes : Nat) :
    (processSetLdAllocationsPacket st numberOfLds startLdId reqBytes).2.respNumberOfLds =
      (List.range (min numberOfLds (st.ldDict.length - startLdId))).countP
        (fun i => decide (0 < st.ldDict.getD (startLdId + i) 0 ∨
          (int_to_list reqBytes numberOfLds).getD i 0 = 0)) := by
  have hcl : (if st.ldDict.length - startLdId < numberOfLds then
        st.ldDict.length - startLdId else numberOfLds) =
      min numberOfLds (st.ldDict.length - startLdId) := by
    split <;> omega
  simp only [processSetLdAllocationsPacket, FmldResponse.respNumberOfLds, hcl]
  rw [setLdAllocGo_count]
  congr 1
  funext j
  rw [Nat.add_zero, Nat.zero_add]

/-- C3 counterexample: with `ld_dict = [1,0,1,1]`, `start_ld_id = 0` and
`limit = 3`, the handler stops at the zero entry without emitting it
(response list `[1]`, length 1), while the claim's inclusive walk would
emit `[1,0]`. -/
theorem fmld_get_ld_allocations_counterexample :
    processGetLdAllocationsPacket (FmldState.mk [1, 0, 1, 1] 4 256) 0 3 =
      Except.ok (FmldResponse.getLdAllocations 3 0 0 1 [1]) ∧
    claimInclusiveEmit [1, 0, 1, 1] 0 0 3 = [1, 0] ∧
    ([1] : List Nat) ≠ [1, 0] := by decide

/-- C3 amended: for a state whose entries are 0/1 and a valid
`start_ld_id`, the response list is the window
`ld_dict[start_ld_id ..][0 .. min(limit, ld_count - start_ld_id))`
truncated at (and excluding) the first zero, `ld_allocation_list_length`
is its length, and `number_of_lds` counts the 1-entries from
`start_ld_id` to the end. -/
theorem fmld_get_ld_allocations_amended (st : FmldState) (startLdId limit : Nat)
    (h01 : ∀ v ∈ st.ldDict, v ≤ 1) (h : startLdId < st.ldDict.length) :
    processGetLdAllocationsPacket st startLdId limit =
      Except.ok (FmldResponse.getLdAllocations
        ((st.ldDict.drop startLdId).countP (fun v => v == 1)) 0 startLdId
        (((st.ldDict.drop startLdId).take
            (min limit (st.ldDict.length - startLdId))).takeWhile (fun v => v == 1)).length
        (((st.ldDict.drop startLdId).take
            (min limit (st.ldDict.length - startLdId))).takeWhile (fun v => v == 1))) := by
  have hne : ¬ startLdId ≥ st.ldDict.length := by omega
  have hlen : (if limit < st.ldDict.length - startLdId then limit
      else st.ldDict.length - startLdId) = min limit (st.ldDict.length - startLdId) := by
    split <;> omega
  simp only [processGetLdAllocationsPacket, if_neg hne, hlen]
  rw [getLdAllocBuild_eq_takeWhile st.ldDict startLdId h01 _ 0 (by omega)]
  rw [getLdAllocCount_eq_countP st.ldDict startLdId _ 0 (by omega)]
  rw [Nat.add_zero]
  rw [List.take_of_length_le (by simp)]

/-- C3 witness: the theorem applied to the spec's example
(`ld_dict=[1,1,1,1]`, `start_ld_id=0`, `limit=3`), together with the
expected response `number_of_lds=4`, `ld_allocation_list_length=3`,
`ld_allocation_list=[1,1,1]`. -/
theorem fmld_get_ld_allocations_amended_witness :
    ((∀ v ∈ (fmldInit 4).ldDict, v ≤ 1) ∧ 0 < (fmldInit 4).ldDict.length) ∧
    (processGetLdAllocationsPacket (fmldInit 4) 0 3 =
      Except.ok (FmldResponse.getLdAllocations
        (((fmldInit 4).ldDict.drop 0).countP (fun v => v == 1)) 0 0
        ((((fmldInit 4).ldDict.drop 0).take
            (min 3 ((fmldInit 4).ldDict.length - 0))).takeWhile (fun v => v == 1)).length
        ((((fmldInit 4).ldDict.drop 0).take
            (min 3 ((fmldInit 4).ldDict.length - 0))).takeWhile (fun v => v == 1)))) ∧
    processGetLdAllocationsPacket (fmldInit 4) 0 3 =
      Except.ok (FmldResponse.getLdAllocations 4 0 0 3 [1, 1, 1]) :=
  ⟨⟨by decide, by decide⟩,
    fmld_get_ld_allocations_amended (fmldInit 4) 0 3 (by decide) (by decide), by decide⟩

/-- C6 counterexample: a packet with opcode `0x9999` matches no dispatch
branch of `_process_fm_to_target`, so the FMLD produces no response at all
(empty response list, no exception) instead of a `CciResponse` with a
nonzero return code. -/
theorem fmld_unknown_opcode_counterexample :
    fmldHandlePacket (fmldInit 4) (CciPacket.mk 0x9999 0 0 0 0) =
      (fmldInit 4, Except.ok []) := by decide

/-- C6 amended: a packet whose opcode is none of `0x5400`, `0x5401`,
`0x5402` is silently dropped: the state is unchanged, no response packet is
produced, and no exception is raised (hence the receive loop continues and
the channel stays open). -/
theorem fmld_unknown_opcode_amended (st : FmldState) (p : CciPacket)
    (h0 : p.commandOpcode ≠ 0x5400) (h1 : p.commandOpcode ≠ 0x5401)
    (h2 : p.commandOpcode ≠ 0x5402) :
    fmldHandlePacket st p = (st, Except.ok []) := by
  simp [fmldHandlePacket, h0, h1, h2]

/-- C6 witness: the amended theorem applied to opcode `0x1234` on a 2-LD
FMLD. -/
theorem fmld_unknown_opcode_amended_witness :
    ((CciPacket.mk 0x1234 1 2 3 4).commandOpcode ≠ 0x5400 ∧
      (CciPacket.mk 0x1234 1 2 3 4).commandOpcode ≠ 0x5401 ∧
      (CciPacket.mk 0x1234 1 2 3 4).commandOpcode ≠ 0x5402) ∧
    fmldHandlePacket (fmldInit 2) (CciPacket.mk 0x1234 1 2 3 4) =
      (fmldInit 2, Except.ok []) :=
  ⟨by decide,
    fmld_unknown_opcode_amended (fmldInit 2) (CciPacket.mk 0x1234 1 2 3 4)
      (by decide) (by decide) (by decide)⟩

/-- C9: starting from any `FMLD(ld_count)` and processing any sequence of
CCI packets (Get LD Info, Get LD Allocations, Set LD Allocations, or
anything else), every entry of `ld_dict` stays in `[0, 1]`: it starts at 1
and each Set LD Allocations update subtracts at most the current value. -/
theorem fmld_ld_dict_bounded (ldCount : Nat) (packets : List CciPacket) :
    ∀ v ∈ (packets.foldl (fun st p => (fmldHandlePacket st p).1)
        (fmldInit ldCount)).ldDict, v ≤ 1 := by
  have general : ∀ (ps : List CciPacket) (st : FmldState), (∀ v ∈ st.ldDict, v ≤ 1) →
      ∀ v ∈ (ps.foldl (fun st p => (fmldHandlePacket st p).1) st).ldDict, v ≤ 1 := by
    intro ps
    induction ps with
    | nil => intro st h; exact h
    | cons p ps ih => intro st h; exact ih _ (fmldHandle_le_one st p h)
  apply general
  intro v hv
  simp only [fmldInit] at hv
  rw [List.eq_of_mem_replicate hv]

/-- C9 witness: after one Set LD Allocations request (the spec example) on
a fresh 4-LD FMLD the dict is `[1,0,0,1]`; the theorem applied to the
member 0 of that dict gives the bound. -/
theorem fmld_ld_dict_bounded_witness :
    (0 ∈ ([CciPacket.mk 0x5402 0 0 3 258].foldl (fun st p => (fmldHandlePacket st p).1)
        (fmldInit 4)).ldDict) ∧ (0 : Nat) ≤ 1 :=
  ⟨by decide, fmld_ld_dict_bounded 4 [CciPacket.mk 0x5402 0 0 3 258] 0 (by decide)⟩

/-- C10: processing a Get LD Allocations packet (valid or not) returns the
FMLD state unchanged (`ld_dict`, `ld_count`, `memory_granularity` all
identical), and more generally every opcode other than `0x5402` leaves the
state unchanged, so only Set LD Allocations mutates `ld_dict`. -/
theorem fmld_get_ld_allocations_frame (st : FmldState) (p : CciPacket) :
    (p.commandOpcode = 0x5401 → (fmldHandlePacket st p).1 = st) ∧
    (p.commandOpcode ≠ 0x5402 → (fmldHandlePacket st p).1 = st) := by
  constructor
  · intro h
    exact fmldHandle_state_of_ne_set st p (by omega)
  · intro h
    exact fmldHandle_state_of_ne_set st p h

/-- C10 witness: a Get LD Allocations request with an out-of-range
`start_ld_id` (which makes the handler raise) still leaves the state of a
4-LD FMLD unchanged. -/
theorem fmld_get_ld_allocations_frame_witness :
    ((CciPacket.mk 0x5401 7 2 0 0).commandOpcode = 0x5401) ∧
    (fmldHandlePacket (fmldInit 4) (CciPacket.mk 0x5401 7 2 0 0)).1 = fmldInit 4 :=
  ⟨by decide, (fmld_get_ld_allocations_frame (fmldInit 4) (CciPacket.mk 0x5401 7 2 0 0)).1
    (by decide)⟩

/-- C4 counterexample: binding vPPB 0 to port 0 where port 0 is a USP (not
a DSP) raises, but switch state has already been mutated at the raise: the
routing-table activation bit of vPPB 0 was set before the type check. -/
theorem bind_vppb_counterexample :
    (bindVppb [CxlComponentType.USP] (SwitchState.mk [false] [none] [none] []) 0 0).2.isSome
      = true ∧
    (bindVppb [CxlComponentType.USP] (SwitchState.mk [false] [none] [none] []) 0 0).1 ≠
      SwitchState.mk [false] [none] [none] [] := by decide

/-- C4 amended: an out-of-range `port_index` raises before any mutation;
a `port_index` in range whose port is not a DSP raises only after
`routing_table.activate_vppb(vppb_index)` has run, so at the raise the
routing-table activation bit of `vppb_index` is set while the vPPB
bindings, the port binder and the event log are untouched. -/
theorem bind_vppb_amended (ports : List CxlComponentType) (st : SwitchState)
    (portIndex vppbIndex : Nat) :
    (ports.length ≤ portIndex →
      bindVppb ports st portIndex vppbIndex = (st, some "port_index is out of bound")) ∧
    (portIndex < ports.length → vppbIndex < st.vppbBinding.length →
      ports.getD portIndex CxlComponentType.USP ≠ CxlComponentType.DSP →
      bindVppb ports st portIndex vppbIndex =
        (SwitchState.mk (routingTableActivateVppb st.routingActive vppbIndex)
          st.vppbBinding st.binderBound st.events, some "physical port is not DSP")) := by
  constructor
  · intro h
    simp [bindVppb, h]
  · intro h1 h2 h3
    simp only [bindVppb, if_neg (Nat.not_le.mpr h1), if_neg (Nat.not_le.mpr h2), if_pos h3]

/-- C4 witness: the amended theorem applied to a two-port switch whose
port 0 is the USP: the failed bind leaves the activation bit of vPPB 0 set
and everything else unchanged. -/
theorem bind_vppb_amended_witness :
    (0 < ([CxlComponentType.USP, CxlComponentType.DSP] : List CxlComponentType).length ∧
      0 < ([none, none] : List (Option Nat)).length ∧
      [CxlComponentType.USP, CxlComponentType.DSP].getD 0 CxlComponentType.USP ≠
        CxlComponentType.DSP) ∧
    bindVppb [CxlComponentType.USP, CxlComponentType.DSP]
        (SwitchState.mk [false, false] [none, none] [none, none] []) 0 0 =
      (SwitchState.mk (routingTableActivateVppb [false, false] 0)
        [none, none] [none, none] [], some "physical port is not DSP") :=
  ⟨⟨by decide, by decide, by decide⟩,
    (bind_vppb_amended [CxlComponentType.USP, CxlComponentType.DSP]
      (SwitchState.mk [false, false] [none, none] [none, none] []) 0 0).2
      (by decide) (by decide) (by decide)⟩

/-- C5: the round trip fails on the 20-byte request with
`number_of_lds = 1`: `parse` stores the trailing 16 bytes as raw bytes,
and `dump` then raises `TypeError` trying to unpack the first byte as a
`(range_1, range_2)` pair, so `dump(parse(b))` never returns `b`. -/
theorem set_ld_allocations_payload_roundtrip_fails :
    SetLdAllocationsRequestPayload.parse ([1, 0, 0, 0] ++ List.replicate 16 0) =
      Except.ok (SetLdAllocationsRequestPayload.mk 1 0 (List.replicate 16 0)) ∧
    SetLdAllocationsRequestPayload.dump
        (SetLdAllocationsRequestPayload.mk 1 0 (List.replicate 16 0)) =
      Except.error "TypeError: cannot unpack non-iterable int object" := by decide

/-- C7 counterexample: sending `HOST_READY` (code 1) from device 2 puts
`[1, 2]` on the wire (`to_bytes` defaults to big-endian), so the first
byte is the IRQ code; the claimed little-endian frame would be `[2, 1]`
with the device id first. -/
theorem send_irq_request_counterexample :
    sendIrqRequestBytes Irq.HOST_READY 2 = Except.ok [1, 2] ∧
    claimLittleEndianFrame ((Irq.value Irq.HOST_READY <<< 8) ||| 2) = [2, 1] ∧
    Except.ok ([1, 2] : List Nat) ≠ (Except.ok ([2, 1] : List Nat) : Except String (List Nat))
    := by decide

/-- C7 amended: for any IRQ code and any device id below 256,
`send_irq_request` writes exactly the two bytes `[irq_code, device_id]`
(big-endian encoding of `(irq_code << 8) | dev_id`), and the receiving
server-side handler decodes that frame back to the `(irq, dev_id)`
pair. -/
theorem send_irq_request_amended (irq : Irq) (deviceId : Nat) (h : deviceId < 256) :
    sendIrqRequestBytes irq deviceId = Except.ok [Irq.value irq, deviceId] ∧
    irqHandlerDecode true [Irq.value irq, deviceId] = (Irq.value irq, deviceId) := by
  have hv : Irq.value irq ≤ 6 := by cases irq <;> decide
  have hd : deviceId < 2 ^ 8 := by omega
  have hval : (Irq.value irq <<< 8) ||| deviceId = Irq.value irq * 256 + deviceId := by
    have hor := Nat.mul_add_lt_is_or hd (Irq.value irq)
    have h8 : (2 : Nat) ^ 8 = 256 := by norm_num
    rw [Nat.shiftLeft_eq, h8, Nat.mul_comm (Irq.value irq) 256]
    rw [h8] at hor
    exact hor.symm
  constructor
  · rw [sendIrqRequestBytes, hval, int_to_bytes]
    have h2 : (256 : Nat) ^ 2 = 65536 := by norm_num
    rw [h2, if_neg (by omega)]
    simp only [intToBytesGo, List.nil_append, List.cons_append]
    have e1 : (Irq.value irq * 256 + deviceId) / 256 % 256 = Irq.value irq := by omega
    have e2 : (Irq.value irq * 256 + deviceId) % 256 = deviceId := by omega
    rw [e1, e2]
  · have hfb : int_from_bytes [Irq.value irq, deviceId] = Irq.value irq * 256 + deviceId := by
      simp [int_from_bytes]
    have h1 : (Irq.value irq * 256 + deviceId) >>> 8 = Irq.value irq := by
      rw [Nat.shiftRight_eq_div_pow]
      have h8 : (2 : Nat) ^ 8 = 256 := by norm_num
      rw [h8]
      omega
    have h2 : (Irq.value irq * 256 + deviceId) &&& 0xFF = deviceId := by
      have hff : (0xFF : Nat) = 2 ^ 8 - 1 := by norm_num
      rw [hff, Nat.and_pow_two_sub_one_eq_mod]
      have h8 : (2 : Nat) ^ 8 = 256 := by norm_num
      rw [h8]
      omega
    simp [irqHandlerDecode, hfb, h1, h2]

/-- C7 witness: the amended theorem applied to `HOST_READY` sent by
device 2. -/
theorem send_irq_request_amended_witness :
    (2 < 256) ∧
    (sendIrqRequestBytes Irq.HOST_READY 2 = Except.ok [Irq.value Irq.HOST_READY, 2] ∧
      irqHandlerDecode true [Irq.value Irq.HOST_READY, 2] = (Irq.value Irq.HOST_READY, 2)) :=
  ⟨by decide, send_irq_request_amended Irq.HOST_READY 2 (by decide)⟩

/-- C8 counterexample: device 5 has a specific handler registered only for
IRQ 1, and a general handler is registered for IRQ 3; on receiving IRQ 3
from device 5 the handler raises instead of falling back to the general
handler as the claim's "in particular" case requires. -/
theorem irq_handler_counterexample :
    irqHandlerStep true [(5, [(1, 100)])] [(3, 200, true)] [3, 5] =
      Except.error "RuntimeError: Invalid IRQ for remote" := by decide

/-- C8 amended: on a decodable frame, (1) a specific handler for
`(dev_id, irq)` is invoked when the device has a registry containing the
IRQ; (2) the general handler is consulted only when the device has no
specific registry at all, and is deregistered when not persistent; (3)
with no specific registry and no general handler the manager fails
loudly; and (4) when the device has a specific registry without this IRQ
the manager also fails loudly, even when a general handler exists. -/
theorem irq_handler_amended (server : Bool) (specific : List (Nat × List (Nat × Nat)))
    (general : List (Nat × Nat × Bool)) (msg : List Nat)
    (h6 : (irqHandlerDecode server msg).1 ≤ 6) :
    (∀ devMap handler, assocLookup specific (irqHandlerDecode server msg).2 = some devMap →
      assocLookup devMap (irqHandlerDecode server msg).1 = some handler →
      irqHandlerStep server specific general msg =
        Except.ok (IrqDispatchResult.mk handler general true)) ∧
    (∀ hp, assocLookup specific (irqHandlerDecode server msg).2 = none →
      assocLookup general (irqHandlerDecode server msg).1 = some hp →
      irqHandlerStep server specific general msg =
        Except.ok (IrqDispatchResult.mk hp.1
          (if hp.2 then general else assocErase general (irqHandlerDecode server msg).1)
          false)) ∧
    (assocLookup specific (irqHandlerDecode server msg).2 = none →
      assocLookup general (irqHandlerDecode server msg).1 = none →
      irqHandlerStep server specific general msg =
        Except.error "RuntimeError: IRQ is not registered for remote") ∧
    (∀ devMap, assocLookup specific (irqHandlerDecode server msg).2 = some devMap →
      assocLookup devMap (irqHandlerDecode server msg).1 = none →
      irqHandlerStep server specific general msg =
        Except.error "RuntimeError: Invalid IRQ for remote") := by
  have hn : ¬ 6 < (irqHandlerDecode server msg).1 := by omega
  refine ⟨?_, ?_, ?_, ?_⟩
  · intro devMap handler ha hb
    simp [irqHandlerStep, hn, ha, hb]
  · intro hp ha hb
    simp [irqHandlerStep, hn, ha, hb]
  · intro ha hb
    simp [irqHandlerStep, hn, ha, hb]
  · intro devMap ha hb
    simp [irqHandlerStep, hn, ha, hb]

/-- C8 witness: the amended theorem's general-handler case on a server
with no specific registrations and a non-persistent general handler for
IRQ 3: the handler is invoked and deregistered. -/
theorem irq_handler_amended_witness :
    ((irqHandlerDecode true [3, 5]).1 ≤ 6 ∧
      assocLookup ([] : List (Nat × List (Nat × Nat))) (irqHandlerDecode true [3, 5]).2 =
        none ∧
      assocLookup [(3, 200, false)] (irqHandlerDecode true [3, 5]).1 = some (200, false)) ∧
    irqHandlerStep true [] [(3, 200, false)] [3, 5] =
      Except.ok (IrqDispatchResult.mk 200 [] false) :=
  ⟨⟨by decide, by decide, by decide⟩,
    (irq_handler_amended true [] [(3, 200, false)] [3, 5] (by decide)).2.1 (200, false)
      (by decide) (by decide)⟩

